import Mathlib

/-!
Shallow embedding of the BCM2837 GPIO driver in `os/pi/src/gpio.rs` and
verification of its specification.

Registers are modelled as unbounded-index words (`Nat → Nat`); every value
the driver writes is a `u32` quantity, and where Rust `u32` arithmetic could
differ from `Nat` arithmetic (the bitwise complement in `clear`) the
truncation is explicit.  Each public method of the driver becomes a pure
function from the register state to the register state (and, for `level`,
a `Bool` result); the typestate discipline that Rust enforces with the
`Gpio<State>` phantom parameter is modelled by an availability table read
off the three `impl` blocks.
-/

namespace GpioSpec

/-- The `Function` enum of `gpio.rs`: an alternative GPIO function, with its
`repr(u8)` discriminants given by `Function.code`. -/
inductive Function where
  | Input
  | Output
  | Alt0
  | Alt1
  | Alt2
  | Alt3
  | Alt4
  | Alt5
deriving DecidableEq, Fintype

/-- The `repr(u8)` discriminant of each `Function` variant, exactly as written
in the enum declaration. -/
def Function.code : Function → Nat
  | .Input => 0b000
  | .Output => 0b001
  | .Alt0 => 0b100
  | .Alt1 => 0b101
  | .Alt2 => 0b110
  | .Alt3 => 0b111
  | .Alt4 => 0b011
  | .Alt5 => 0b010

/-- The `Registers` block of `gpio.rs`.  Each register array is a map from
word index to the 32-bit word stored there; `PUD` is a single word.  The
reserved padding words have no observable content and are omitted. -/
@[ext]
structure Registers where
  FSEL : Nat → Nat
  SET : Nat → Nat
  CLR : Nat → Nat
  LEV : Nat → Nat
  EDS : Nat → Nat
  REN : Nat → Nat
  FEN : Nat → Nat
  HEN : Nat → Nat
  LEN : Nat → Nat
  AREN : Nat → Nat
  AFEN : Nat → Nat
  PUD : Nat
  PUDCLK : Nat → Nat

/-- Point update of one word of a register array: the write that
`array[i] = v` performs. -/
def setIdx (f : Nat → Nat) (i v : Nat) : Nat → Nat :=
  fun j => if j = i then v else f j

/-- The pin states generated by `states! { Uninitialized, Input, Output, Alt }`. -/
inductive PinState where
  | Uninitialized
  | Input
  | Output
  | Alt
deriving DecidableEq

/-- A `Gpio` handle: the `pin` field of the Rust struct together with the
typestate, which Rust keeps in the `State` type parameter. -/
structure Gpio where
  pin : Nat
  state : PinState
deriving DecidableEq

/-- `Gpio::transition`: rebuilds the handle with the same pin in state `s`. -/
def Gpio.transition (g : Gpio) (s : PinState) : Gpio :=
  { pin := g.pin, state := s }

/-- `Gpio::new(pin)`: panics (`none`) when `pin > 53`, otherwise returns an
`Uninitialized` handle for `pin`. -/
def Gpio.new (pin : Nat) : Option Gpio :=
  if pin > 53 then none
  else some { pin := pin, state := PinState.Uninitialized }

/-- Bitwise complement of a `u32` value: `!x` in Rust. -/
def u32not (x : Nat) : Nat := (2 ^ 32 - 1) ^^^ x

/-- `Gpio::<Uninitialized>::into_alt(function)`: computes
`fsel_index = pin / 10`, `offset = pin - fsel_index * 10`, and or-masks
`FSEL[fsel_index]` with `(function as u32) << (3 * offset)` (the
`or_mask` of the `volatile` crate is a read-modify-write OR), then
transitions the handle to `Alt`. -/
def Gpio.into_alt (g : Gpio) (function : Function) (r : Registers) :
    Gpio × Registers :=
  let fsel_index := g.pin / 10
  let offset := g.pin - fsel_index * 10
  let payload := function.code
  (g.transition PinState.Alt,
    { r with
      FSEL := setIdx r.FSEL fsel_index
        (r.FSEL fsel_index ||| (payload <<< (3 * offset))) })

/-- `Gpio::<Uninitialized>::into_output()`: `self.into_alt(Function::Output).transition()`. -/
def Gpio.into_output (g : Gpio) (r : Registers) : Gpio × Registers :=
  let p := g.into_alt Function.Output r
  (p.1.transition PinState.Output, p.2)

/-- `Gpio::<Uninitialized>::into_input()`: `self.into_alt(Function::Input).transition()`. -/
def Gpio.into_input (g : Gpio) (r : Registers) : Gpio × Registers :=
  let p := g.into_alt Function.Input r
  (p.1.transition PinState.Input, p.2)

/-- `Gpio::<Output>::set()`: computes `set_index = pin / 32`,
`offset = pin - 32 * set_index`, and writes `1 << offset` to
`SET[set_index]`. -/
def Gpio.set (g : Gpio) (r : Registers) : Registers :=
  let set_index := g.pin / 32
  let offset := g.pin - 32 * set_index
  let payload := 1
  { r with SET := setIdx r.SET set_index (payload <<< offset) }

/-- `Gpio::<Output>::clear()`: computes `clr_index = pin / 32`,
`offset = pin - 32 * clr_index`, and writes `!(1 << offset)` to
`SET[clr_index]` — the source writes to the SET array, not to CLR. -/
def Gpio.clear (g : Gpio) (r : Registers) : Registers :=
  let clr_index := g.pin / 32
  let offset := g.pin - 32 * clr_index
  let payload := 1
  { r with SET := setIdx r.SET clr_index (u32not (payload <<< offset)) }

/-- `Gpio::<Input>::level()`: computes `level_index = pin / 32`,
`offset = pin - 32 * level_index`, reads `LEV[level_index]`, and matches
`value & payload` with `payload = 1` — the `offset` binding is dead and the
mask is the unshifted constant `1`, exactly as in the source. -/
def Gpio.level (g : Gpio) (r : Registers) : Bool :=
  let level_index := g.pin / 32
  let offset := g.pin - 32 * level_index
  let payload := 1
  let _dead := offset
  let value := r.LEV level_index
  match value &&& payload with
  | 0 => false
  | _ => true

/-- The public operations of the module other than `new`. -/
inductive Op where
  | into_input
  | into_output
  | into_alt (f : Function)
  | set
  | clear
  | level

/-- Which public method is callable in which typestate, read off the three
`impl` blocks: `impl Gpio<Uninitialized>` declares `into_alt`, `into_output`
and `into_input`; `impl Gpio<Output>` declares `set` and `clear`;
`impl Gpio<Input>` declares `level`. -/
def availableIn : Op → PinState → Bool
  | .into_input, .Uninitialized => true
  | .into_output, .Uninitialized => true
  | .into_alt _, .Uninitialized => true
  | .set, .Output => true
  | .clear, .Output => true
  | .level, .Input => true
  | _, _ => false

/-- The typestate in which each public method leaves the handle: the three
`into_*` methods consume the handle and return one in the target state;
`set`, `clear` and `level` borrow the handle and leave its state alone. -/
def nextState : Op → PinState → PinState
  | .into_input, _ => PinState.Input
  | .into_output, _ => PinState.Output
  | .into_alt _, _ => PinState.Alt
  | .set, s => s
  | .clear, s => s
  | .level, s => s

/-- The 3-bit function-select field of pin `pin`: word `pin / 10` of FSEL,
shifted down to its offset `3 * (pin - (pin / 10) * 10)` and masked to
3 bits. -/
def fsel_field (r : Registers) (pin : Nat) : Nat :=
  (r.FSEL (pin / 10) >>> (3 * (pin - pin / 10 * 10))) &&& 7

/-- An all-zero register state, used for concrete evaluations. -/
def zeroRegs : Registers :=
  { FSEL := fun _ => 0, SET := fun _ => 0, CLR := fun _ => 0,
    LEV := fun _ => 0, EDS := fun _ => 0, REN := fun _ => 0,
    FEN := fun _ => 0, HEN := fun _ => 0, LEN := fun _ => 0,
    AREN := fun _ => 0, AFEN := fun _ => 0, PUD := 0,
    PUDCLK := fun _ => 0 }

/-- A register state in which every LEV word reads `0b10`: pin 1 is high,
pin 0 is low. -/
def regsLev2 : Registers := { zeroRegs with LEV := fun _ => 2 }

/-- A register state in which every FSEL word reads `0b001` (pin 0 already
configured as output). -/
def regsFsel1 : Registers := { zeroRegs with FSEL := fun _ => 1 }

/-! ## Helper lemmas -/

/-- Every function code fits in 3 bits. -/
theorem Function.code_lt_eight (f : Function) : f.code < 8 := by
  cases f <;> decide

/-- Writing a word back to the slot it was read from is the identity. -/
theorem setIdx_self (f : Nat → Nat) (i : Nat) : setIdx f i (f i) = f := by
  funext j
  unfold setIdx
  by_cases h : j = i <;> simp [h]

/-- Or-ing a 3-bit value shifted to offset `k` into a word changes the 3-bit
field at offset `k` to the OR of its old content with that value. -/
theorem or_shift_field (w c k : Nat) (hc : c < 8) :
    ((w ||| (c <<< k)) >>> k) &&& 7 = ((w >>> k) &&& 7) ||| c := by
  apply Nat.eq_of_testBit_eq
  intro i
  simp only [Nat.testBit_and, Nat.testBit_or, Nat.testBit_shiftRight,
    Nat.testBit_shiftLeft, Nat.le_add_right, decide_True, Bool.true_and,
    Nat.add_sub_cancel_left]
  by_cases hi : i < 3
  · have h7 : (7 : Nat).testBit i = true := by
      interval_cases i <;> rfl
    simp [h7, Bool.and_or_distrib_right]
  · have h7 : (7 : Nat).testBit i = false := by
      apply Nat.testBit_lt_two_pow
      calc (7 : Nat) < 2 ^ 3 := by norm_num
        _ ≤ 2 ^ i := Nat.pow_le_pow_right (by norm_num) (by omega)
    have hcb : c.testBit i = false := by
      apply Nat.testBit_lt_two_pow
      calc c < 2 ^ 3 := hc
        _ ≤ 2 ^ i := Nat.pow_le_pow_right (by norm_num) (by omega)
    simp [h7, hcb]

/-- Or-ing a 3-bit value shifted to offset `k` into a word leaves every bit
outside the field `[k, k + 3)` unchanged. -/
theorem or_shift_outside (w c k b : Nat) (hc : c < 8)
    (hb : b < k ∨ k + 3 ≤ b) : (w ||| (c <<< k)).testBit b = w.testBit b := by
  have hz : (c <<< k).testBit b = false := by
    rw [Nat.testBit_shiftLeft]
    rcases hb with hb | hb
    · simp [Nat.not_le.mpr hb]
    · have hcb : c.testBit (b - k) = false := by
        apply Nat.testBit_lt_two_pow
        calc c < 2 ^ 3 := hc
          _ ≤ 2 ^ (b - k) := Nat.pow_le_pow_right (by norm_num) (by omega)
      simp [hcb]
  simp [Nat.testBit_or, hz]

/-- `1 <<< off` has exactly the bit at `off` set. -/
theorem one_shift_testBit (off b : Nat) :
    (1 <<< off).testBit b = decide (b = off) := by
  rw [Nat.one_shiftLeft, Nat.testBit_two_pow]
  by_cases h : off = b <;> simp [h, Ne.symm]

/-! ## Claim theorems -/

/-- Claim C6: `new(pin)` yields an `Uninitialized` handle bound to `pin` for
every pin in `[0, 53]`, and fails fatally (modelled as `none`) for every
pin greater than 53. -/
theorem new_range_check (pin : Nat) :
    (pin ≤ 53 → Gpio.new pin = some { pin := pin, state := PinState.Uninitialized }) ∧
    (53 < pin → Gpio.new pin = none) := by
  constructor <;> intro h <;> unfold Gpio.new
  · rw [if_neg (by omega)]
  · rw [if_pos (by omega)]

/-- Witness for C6 at pins 53 and 54. -/
theorem new_range_check_witness :
    Gpio.new 53 = some { pin := 53, state := PinState.Uninitialized } ∧
    Gpio.new 54 = none :=
  ⟨(new_range_check 53).1 (by decide), (new_range_check 54).2 (by decide)⟩

/-- Claim C4: for every pin in `[0, 53]`, `set()` writes to SET word
`pin / 32` a value whose only set bit is at offset `pin − 32·(pin / 32)`,
and touches no other SET word and no other register of the block. -/
theorem set_writes_single_bit (g : Gpio) (r : Registers) (h : g.pin ≤ 53) :
    ((Gpio.set g r).SET (g.pin / 32) = 2 ^ (g.pin - 32 * (g.pin / 32))) ∧
    (∀ b, ((Gpio.set g r).SET (g.pin / 32)).testBit b =
      decide (b = g.pin - 32 * (g.pin / 32))) ∧
    (∀ j, j ≠ g.pin / 32 → (Gpio.set g r).SET j = r.SET j) ∧
    (Gpio.set g r).FSEL = r.FSEL ∧ (Gpio.set g r).CLR = r.CLR ∧
    (Gpio.set g r).LEV = r.LEV ∧ (Gpio.set g r).EDS = r.EDS ∧
    (Gpio.set g r).REN = r.REN ∧ (Gpio.set g r).FEN = r.FEN ∧
    (Gpio.set g r).HEN = r.HEN ∧ (Gpio.set g r).LEN = r.LEN ∧
    (Gpio.set g r).AREN = r.AREN ∧ (Gpio.set g r).AFEN = r.AFEN ∧
    (Gpio.set g r).PUD = r.PUD ∧ (Gpio.set g r).PUDCLK = r.PUDCLK := by
  refine ⟨?_, ?_, ?_, rfl, rfl, rfl, rfl, rfl, rfl, rfl, rfl, rfl, rfl, rfl, rfl⟩
  · show setIdx r.SET (g.pin / 32) (1 <<< (g.pin - 32 * (g.pin / 32))) (g.pin / 32) = _
    unfold setIdx
    rw [if_pos rfl, Nat.one_shiftLeft]
  · intro b
    show (setIdx r.SET (g.pin / 32) (1 <<< (g.pin - 32 * (g.pin / 32))) (g.pin / 32)).testBit b = _
    unfold setIdx
    rw [if_pos rfl, one_shift_testBit]
  · intro j hj
    show setIdx r.SET (g.pin / 32) (1 <<< (g.pin - 32 * (g.pin / 32))) j = _
    unfold setIdx
    rw [if_neg hj]

/-- Witness for C4 at pin 5 on the all-zero register state. -/
theorem set_writes_single_bit_witness :
    (Gpio.set { pin := 5, state := PinState.Output } zeroRegs).SET (5 / 32) =
      2 ^ (5 - 32 * (5 / 32)) :=
  (set_writes_single_bit { pin := 5, state := PinState.Output } zeroRegs (by decide)).1

/-- Claim C5: for every pin in `[0, 53]` and every starting register state,
`into_output()` performs the same register mutation as
`into_alt(Function::Output)` and `into_input()` the same as
`into_alt(Function::Input)`; the resulting handles carry the same pin and
differ from the `into_alt` result only in the state tag. -/
theorem into_output_input_equiv_into_alt (g : Gpio) (r : Registers)
    (h : g.pin ≤ 53) :
    ((g.into_output r).2 = (g.into_alt Function.Output r).2 ∧
     (g.into_output r).1.pin = (g.into_alt Function.Output r).1.pin ∧
     (g.into_output r).1.pin = g.pin ∧
     (g.into_output r).1.state = PinState.Output) ∧
    ((g.into_input r).2 = (g.into_alt Function.Input r).2 ∧
     (g.into_input r).1.pin = (g.into_alt Function.Input r).1.pin ∧
     (g.into_input r).1.pin = g.pin ∧
     (g.into_input r).1.state = PinState.Input) :=
  ⟨⟨rfl, rfl, rfl, rfl⟩, ⟨rfl, rfl, rfl, rfl⟩⟩

/-- Witness for C5 at pin 7 on the all-zero register state. -/
theorem into_output_input_equiv_into_alt_witness :
    (Gpio.into_output { pin := 7, state := PinState.Uninitialized } zeroRegs).2 =
      (Gpio.into_alt { pin := 7, state := PinState.Uninitialized } Function.Output zeroRegs).2 :=
  (into_output_input_equiv_into_alt
    { pin := 7, state := PinState.Uninitialized } zeroRegs (by decide)).1.1

/-- Claim C9: for every pin in `[0, 53]` and every starting register state,
`into_input()` leaves the value of every register word unchanged: the input
code `0b000` makes the read-modify-write OR in `into_alt` write back the
word it read. -/
theorem into_input_preserves_registers (g : Gpio) (r : Registers)
    (h : g.pin ≤ 53) : (g.into_input r).2 = r := by
  cases r
  simp [Gpio.into_input, Gpio.into_alt, Function.code, Nat.zero_shiftLeft,
    setIdx_self]

/-- Witness for C9 at pin 3 on the all-zero register state. -/
theorem into_input_preserves_registers_witness :
    (Gpio.into_input { pin := 3, state := PinState.Uninitialized } zeroRegs).2 = zeroRegs :=
  into_input_preserves_registers
    { pin := 3, state := PinState.Uninitialized } zeroRegs (by decide)

/-- Claim C1 (code bug): with every LEV word reading `0b10`, pin 1 is high
— bit `1 − 32·(1/32) = 1` of LEV word 0 is 1 — yet `level()` on pin 1
returns `false`, because the source masks the word with the unshifted
constant `1` and never uses the computed offset. -/
theorem level_bug_at_pin_one :
    Gpio.level { pin := 1, state := PinState.Input } regsLev2 = false ∧
    Nat.testBit (regsLev2.LEV (1 / 32)) (1 - 32 * (1 / 32)) = true := by
  constructor <;> rfl

/-- Claim C2 (code bug): `clear()` on pin 0 writes the 31-bit complement
mask `0xFFFFFFFE` to SET word 0 and leaves the CLR array untouched, instead
of issuing the single-bit write `0b1` to CLR word 0 that the claim
describes. -/
theorem clear_bug_writes_complement_to_set_array :
    (Gpio.clear { pin := 0, state := PinState.Output } zeroRegs).SET 0 = 4294967294 ∧
    (Gpio.clear { pin := 0, state := PinState.Output } zeroRegs).CLR 0 = zeroRegs.CLR 0 ∧
    (Gpio.clear { pin := 0, state := PinState.Output } zeroRegs).CLR = zeroRegs.CLR := by
  refine ⟨?_, rfl, rfl⟩
  decide

/-- Claim C3 counterexample: with FSEL word 0 already holding `0b001`,
`into_alt(Alt5)` on pin 0 leaves the 3-bit field at `0b011`, not the Alt5
code `0b010`: the OR-only write combines old and new bits. -/
theorem into_alt_field_counterexample :
    fsel_field
      ((Gpio.into_alt { pin := 0, state := PinState.Uninitialized }
        Function.Alt5 regsFsel1).2) 0 = 3 ∧
    Function.code Function.Alt5 = 2 ∧
    fsel_field
      ((Gpio.into_alt { pin := 0, state := PinState.Uninitialized }
        Function.Alt5 regsFsel1).2) 0 ≠ Function.code Function.Alt5 := by
  refine ⟨?_, rfl, ?_⟩ <;> decide

/-- Claim C3 (amended): for every pin in `[0, 53]`, every function `f` and
every starting register state, `into_alt(f)` sets the 3-bit field of FSEL
word `pin / 10` at bit offset `3·(pin − 10·(pin / 10))` to the bitwise OR
of its previous value with the code of `f` (so to the code itself exactly
when the field was previously zero); every bit of that word outside the
field, every other FSEL word, and every other register are unchanged. -/
theorem into_alt_ors_field (g : Gpio) (function : Function) (r : Registers)
    (h : g.pin ≤ 53) :
    (fsel_field (g.into_alt function r).2 g.pin =
      (fsel_field r g.pin ||| function.code)) ∧
    (∀ b, b < 3 * (g.pin - g.pin / 10 * 10) ∨
        3 * (g.pin - g.pin / 10 * 10) + 3 ≤ b →
      ((g.into_alt function r).2.FSEL (g.pin / 10)).testBit b =
        (r.FSEL (g.pin / 10)).testBit b) ∧
    (∀ j, j ≠ g.pin / 10 → (g.into_alt function r).2.FSEL j = r.FSEL j) ∧
    (g.into_alt function r).2.SET = r.SET ∧
    (g.into_alt function r).2.CLR = r.CLR ∧
    (g.into_alt function r).2.LEV = r.LEV ∧
    (g.into_alt function r).2.EDS = r.EDS ∧
    (g.into_alt function r).2.REN = r.REN ∧
    (g.into_alt function r).2.FEN = r.FEN ∧
    (g.into_alt function r).2.HEN = r.HEN ∧
    (g.into_alt function r).2.LEN = r.LEN ∧
    (g.into_alt function r).2.AREN = r.AREN ∧
    (g.into_alt function r).2.AFEN = r.AFEN ∧
    (g.into_alt function r).2.PUD = r.PUD ∧
    (g.into_alt function r).2.PUDCLK = r.PUDCLK := by
  have hw : (g.into_alt function r).2.FSEL (g.pin / 10) =
      r.FSEL (g.pin / 10) |||
        (function.code <<< (3 * (g.pin - g.pin / 10 * 10))) := by
    show setIdx r.FSEL (g.pin / 10) _ (g.pin / 10) = _
    unfold setIdx
    rw [if_pos rfl]
  refine ⟨?_, ?_, ?_, rfl, rfl, rfl, rfl, rfl, rfl, rfl, rfl, rfl, rfl, rfl, rfl⟩
  · unfold fsel_field
    rw [hw, or_shift_field _ _ _ (Function.code_lt_eight function)]
  · intro b hb
    rw [hw, or_shift_outside _ _ _ _ (Function.code_lt_eight function) hb]
  · intro j hj
    show setIdx r.FSEL (g.pin / 10) _ j = _
    unfold setIdx
    rw [if_neg hj]

/-- Witness for the amended C3 at pin 3, function Alt3, on the all-zero
register state. -/
theorem into_alt_ors_field_witness :
    fsel_field
      ((Gpio.into_alt { pin := 3, state := PinState.Uninitialized }
        Function.Alt3 zeroRegs).2) 3 =
      (fsel_field zeroRegs 3 ||| Function.code Function.Alt3) :=
  (into_alt_ors_field { pin := 3, state := PinState.Uninitialized }
    Function.Alt3 zeroRegs (by decide)).1

/-- Claim C7: the typestate machine has initial state `Uninitialized`; the
only state-changing operations are available in `Uninitialized` alone and
lead to `Input`, `Output` or `Alt`; those three states are terminal (every
operation available there leaves the state fixed); and `set`/`clear` are
available only in `Output`, `level` only in `Input`, the `into_*`
transitions only in `Uninitialized`. -/
theorem typestate_machine :
    (∀ pin g, Gpio.new pin = some g → g.state = PinState.Uninitialized) ∧
    (∀ op s, availableIn op s = true → nextState op s ≠ s →
      s = PinState.Uninitialized) ∧
    (∀ op s, availableIn op s = true → s ≠ PinState.Uninitialized →
      nextState op s = s) ∧
    (∀ s f, availableIn (Op.into_alt f) s = true → s = PinState.Uninitialized) ∧
    (∀ s, availableIn Op.into_input s = true → s = PinState.Uninitialized) ∧
    (∀ s, availableIn Op.into_output s = true → s = PinState.Uninitialized) ∧
    (∀ s, availableIn Op.set s = true → s = PinState.Output) ∧
    (∀ s, availableIn Op.clear s = true → s = PinState.Output) ∧
    (∀ s, availableIn Op.level s = true → s = PinState.Input) ∧
    nextState Op.into_input PinState.Uninitialized = PinState.Input ∧
    nextState Op.into_output PinState.Uninitialized = PinState.Output ∧
    (∀ f, nextState (Op.into_alt f) PinState.Uninitialized = PinState.Alt) := by
  refine ⟨?_, ?_, ?_, ?_, ?_, ?_, ?_, ?_, ?_, rfl, rfl, fun _ => rfl⟩
  · intro pin g hg
    unfold Gpio.new at hg
    by_cases hp : pin > 53
    · rw [if_pos hp] at hg
      exact absurd hg (by simp)
    · rw [if_neg hp] at hg
      cases hg
      rfl
  · intro op s ha hs
    cases op <;> cases s <;> simp_all [availableIn, nextState]
  · intro op s ha hs
    cases op <;> cases s <;> simp_all [availableIn, nextState]
  · intro s f ha
    cases s <;> simp_all [availableIn]
  all_goals intro s ha
  all_goals cases s <;> simp_all [availableIn]

/-- Witness for C7: a handle built by `new 0` is `Uninitialized`, and the
availability of `set` in state `Output` satisfies its hypothesis. -/
theorem typestate_machine_witness :
    ({ pin := 0, state := PinState.Uninitialized } : Gpio).state =
      PinState.Uninitialized ∧
    PinState.Output = PinState.Output :=
  ⟨typestate_machine.1 0 { pin := 0, state := PinState.Uninitialized } (by decide),
   typestate_machine.2.2.2.2.2.2.1 PinState.Output (by decide)⟩

/-- Claim C8: the function codes are exactly the eight 3-bit values listed
in the enum (`000` input, `001` output, `100,101,110,111,011,010` for
alt0..alt5); every 3-bit value is some variant code; and after any
`into_alt` the function-select field always holds a value in this set. -/
theorem function_code_range :
    (Function.code Function.Input = 0b000 ∧
     Function.code Function.Output = 0b001 ∧
     Function.code Function.Alt0 = 0b100 ∧
     Function.code Function.Alt1 = 0b101 ∧
     Function.code Function.Alt2 = 0b110 ∧
     Function.code Function.Alt3 = 0b111 ∧
     Function.code Function.Alt4 = 0b011 ∧
     Function.code Function.Alt5 = 0b010) ∧
    (∀ f : Function, f.code < 8) ∧
    (∀ v : Nat, v < 8 → ∃ f : Function, f.code = v) ∧
    (∀ (g : Gpio) (f : Function) (r : Registers), g.pin ≤ 53 →
      ∃ fw : Function, fsel_field (g.into_alt f r).2 g.pin = fw.code) := by
  refine ⟨⟨rfl, rfl, rfl, rfl, rfl, rfl, rfl, rfl⟩,
    Function.code_lt_eight, ?_, ?_⟩
  · intro v hv
    interval_cases v
    · exact ⟨Function.Input, rfl⟩
    · exact ⟨Function.Output, rfl⟩
    · exact ⟨Function.Alt5, rfl⟩
    · exact ⟨Function.Alt4, rfl⟩
    · exact ⟨Function.Alt0, rfl⟩
    · exact ⟨Function.Alt1, rfl⟩
    · exact ⟨Function.Alt2, rfl⟩
    · exact ⟨Function.Alt3, rfl⟩
  · intro g f r hg
    have hlt : fsel_field (g.into_alt f r).2 g.pin < 8 := by
      have : fsel_field (g.into_alt f r).2 g.pin ≤ 7 := by
        unfold fsel_field
        exact Nat.and_le_right
      omega
    obtain ⟨fw, hfw⟩ := (by
      intro v hv
      interval_cases v
      · exact ⟨Function.Input, rfl⟩
      · exact ⟨Function.Output, rfl⟩
      · exact ⟨Function.Alt5, rfl⟩
      · exact ⟨Function.Alt4, rfl⟩
      · exact ⟨Function.Alt0, rfl⟩
      · exact ⟨Function.Alt1, rfl⟩
      · exact ⟨Function.Alt2, rfl⟩
      · exact ⟨Function.Alt3, rfl⟩ :
      ∀ v : Nat, v < 8 → ∃ f : Function, Function.code f = v)
      (fsel_field (g.into_alt f r).2 g.pin) hlt
    exact ⟨fw, hfw.symm⟩

/-- Witness for C8: code 5 is realised by Alt1, and pin 0 with Alt0 on the
all-zero register state lands the field on a valid code. -/
theorem function_code_range_witness :
    (∃ f : Function, Function.code f = 5) ∧
    (∃ fw : Function,
      fsel_field
        ((Gpio.into_alt { pin := 0, state := PinState.Uninitialized }
          Function.Alt0 zeroRegs).2) 0 = fw.code) :=
  ⟨function_code_range.2.2.1 5 (by decide),
   function_code_range.2.2.2 { pin := 0, state := PinState.Uninitialized }
     Function.Alt0 zeroRegs (by decide)⟩

/-- Claim C10: `new` binds the pin number and enforces `pin ≤ 53`;
`transition`, `into_alt`, `into_output` and `into_input` all preserve the
pin; and for every pin in `[0, 53]` the computed FSEL index is at most 5,
the computed SET/CLR/LEV word index is at most 1, and every computed shift
amount is below 32. -/
theorem pin_preserved_and_indices_in_bounds :
    (∀ pin g, Gpio.new pin = some g → g.pin = pin ∧ g.pin ≤ 53) ∧
    (∀ (g : Gpio) (s : PinState), (g.transition s).pin = g.pin) ∧
    (∀ (g : Gpio) (f : Function) (r : Registers),
      (g.into_alt f r).1.pin = g.pin) ∧
    (∀ (g : Gpio) (r : Registers), (g.into_output r).1.pin = g.pin) ∧
    (∀ (g : Gpio) (r : Registers), (g.into_input r).1.pin = g.pin) ∧
    (∀ pin : Nat, pin ≤ 53 →
      pin / 10 ≤ 5 ∧ pin / 32 ≤ 1 ∧
      3 * (pin - pin / 10 * 10) < 32 ∧
      3 * (pin - pin / 10 * 10) + 3 ≤ 32 ∧
      pin - 32 * (pin / 32) < 32) := by
  refine ⟨?_, fun _ _ => rfl, fun _ _ _ => rfl, fun _ _ => rfl,
    fun _ _ => rfl, ?_⟩
  · intro pin g hg
    unfold Gpio.new at hg
    by_cases hp : pin > 53
    · rw [if_pos hp] at hg
      exact absurd hg (by simp)
    · rw [if_neg hp] at hg
      cases hg
      refine ⟨rfl, ?_⟩
      show pin ≤ 53
      omega
  · intro pin hpin
    omega

/-- Witness for C10: `new 11` and the bounds at pin 53. -/
theorem pin_preserved_and_indices_in_bounds_witness :
    (({ pin := 11, state := PinState.Uninitialized } : Gpio).pin = 11 ∧
     ({ pin := 11, state := PinState.Uninitialized } : Gpio).pin ≤ 53) ∧
    (53 / 10 ≤ 5 ∧ 53 / 32 ≤ 1 ∧
     3 * (53 - 53 / 10 * 10) < 32 ∧
     3 * (53 - 53 / 10 * 10) + 3 ≤ 32 ∧
     53 - 32 * (53 / 32) < 32) :=
  ⟨pin_preserved_and_indices_in_bounds.1 11
     { pin := 11, state := PinState.Uninitialized } (by decide),
   pin_preserved_and_indices_in_bounds.2.2.2.2.2 53 (by decide)⟩

end GpioSpec
